import Mathlib

/-!
Verification of `private_gpt/components/llm/prompt_helper.py`.

The module formats a conversation (a list of role-tagged messages) into a
single prompt string, one formatting strategy per model family, and resolves a
strategy from a style name.  Every definition below is a direct shallow
embedding of the corresponding Python function; the public
`messages_to_prompt` / `completion_to_prompt` wrappers only add diagnostic
logging around the `_messages_to_prompt` / `_completion_to_prompt` methods, so
the embedded operations are those formatting methods.  The Llama2 style
delegates to `llama_index.llms.llama_utils`, an external dependency whose code
is not part of this repository; it is modelled from the spec where a claim
needs it, and marked as such.
-/

/-- The message roles of `llama_index.llms.MessageRole`, a string enum whose
values are the lowercase role names.  Besides the three roles the spec's data
model lists, the enum carries further members (`FUNCTION`, `TOOL`); they are
what the Mistral style's role check can reject and the ChatML style skips. -/
inductive MessageRole where
  | system
  | user
  | assistant
  | function
  | tool
deriving DecidableEq, Repr

/-- `role.lower()`: `MessageRole` is a `str` enum, so `lower()` returns its
lowercase string value. -/
def MessageRole.lower : MessageRole → String
  | .system => "system"
  | .user => "user"
  | .assistant => "assistant"
  | .function => "function"
  | .tool => "tool"

/-- `llama_index.llms.ChatMessage`: a role and an optional text content. -/
structure ChatMessage where
  role : MessageRole
  content : Option String
deriving DecidableEq, Repr

/-- The whitespace characters stripped by Python's `str.strip()` (the ASCII
ones; content is ordinary text). -/
def pyIsSpace (c : Char) : Bool :=
  c == ' ' || c == '\t' || c == '\n' || c == '\r' || c == '\x0b' || c == '\x0c'

/-- Remove trailing whitespace characters from a character list. -/
def rstripList (l : List Char) : List Char :=
  (l.reverse.dropWhile pyIsSpace).reverse

/-- Remove leading and trailing whitespace characters. -/
def pyStripList (l : List Char) : List Char :=
  rstripList (l.dropWhile pyIsSpace)

/-- Python's `str.strip()`. -/
def pyStrip (s : String) : String :=
  ⟨pyStripList s.data⟩

/-- `message.content or ""`: `None` (and the falsy empty string) become the
empty string. -/
def contentOrEmpty (m : ChatMessage) : String :=
  m.content.getD ""

/-- Python's `str(content)` on an optional string: `str(None)` is the literal
text `"None"`, and `str` of a string is itself. -/
def strOfContent : Option String → String
  | none => "None"
  | some s => s

namespace DefaultPromptStyle

/-- `DefaultPromptStyle._messages_to_prompt`: always the empty string. -/
def messages_to_prompt (_messages : List ChatMessage) : String := ""

/-- `DefaultPromptStyle._completion_to_prompt`: always the empty string. -/
def completion_to_prompt (_completion : String) : String := ""

end DefaultPromptStyle

namespace TagPromptStyle

/-- The `message_from_user` string built for one message in
`TagPromptStyle._messages_to_prompt`:
`f"<|{role.lower()}|>: {content.strip()}"` plus the appended newline. -/
def line (message : ChatMessage) : String :=
  "<|" ++ message.role.lower ++ "|>: " ++ pyStrip (contentOrEmpty message) ++ "\n"

/-- `TagPromptStyle._messages_to_prompt`: one `<|role|>: content.strip()` line
per message, then the `<|assistant|>: ` cue. -/
def messages_to_prompt (messages : List ChatMessage) : String :=
  (messages.foldl (fun prompt message => prompt ++ line message) "")
  ++ "<|assistant|>: "

/-- `TagPromptStyle._completion_to_prompt`: wrap as a USER message and
delegate. -/
def completion_to_prompt (completion : String) : String :=
  messages_to_prompt [⟨MessageRole.user, some completion⟩]

end TagPromptStyle

namespace MistralPromptStyle

/-- The loop of `MistralPromptStyle._messages_to_prompt` over the remaining
messages, carrying `inst_buffer` and the accumulated `text`.  SYSTEM/USER
contents (via `str(message.content).strip()`) are buffered; an ASSISTANT
message flushes the buffer as a closed `<s>[INST] ... [/INST] ...</s>` block;
any other role raises `ValueError` (the spec's `UnsupportedRoleError`),
modelled as `Except.error` carrying the offending role. -/
def loop : List String → String → List ChatMessage → Except MessageRole String
  | inst_buffer, text, [] =>
    if inst_buffer.length > 0 then
      .ok (text ++ ("<s>[INST] " ++ String.intercalate "\n" inst_buffer ++ " [/INST]"))
    else
      .ok text
  | inst_buffer, text, message :: rest =>
    if message.role = MessageRole.system ∨ message.role = MessageRole.user then
      loop (inst_buffer ++ [pyStrip (strOfContent message.content)]) text rest
    else if message.role = MessageRole.assistant then
      loop []
        (text ++ ("<s>[INST] " ++ String.intercalate "\n" inst_buffer ++ " [/INST]")
          ++ (" " ++ pyStrip (strOfContent message.content) ++ "</s>"))
        rest
    else
      .error message.role

/-- `MistralPromptStyle._messages_to_prompt`. -/
def messages_to_prompt (messages : List ChatMessage) : Except MessageRole String :=
  loop [] "" messages

/-- `MistralPromptStyle._completion_to_prompt`: wrap as a USER message and
delegate. -/
def completion_to_prompt (completion : String) : Except MessageRole String :=
  messages_to_prompt [⟨MessageRole.user, some completion⟩]

end MistralPromptStyle

namespace CodeLlamaPromptStyle

/-- The three strings appended for one message in
`CodeLlamaPromptStyle._messages_to_prompt`:
`f"Source: {role}\n\n "`, the stripped content, and `" <step> "`. -/
def segment (message : ChatMessage) : String :=
  "Source: " ++ message.role.lower ++ "\n\n "
    ++ pyStrip (contentOrEmpty message) ++ " <step> "

/-- `CodeLlamaPromptStyle._messages_to_prompt`. -/
def messages_to_prompt (messages : List ChatMessage) : String :=
  (messages.foldl (fun prompt message => prompt ++ segment message) "<s>")
  ++ "Source: assistant\nDestination: user\n\n "

/-- `CodeLlamaPromptStyle._completion_to_prompt`: wrap as a USER message and
delegate. -/
def completion_to_prompt (completion : String) : String :=
  messages_to_prompt [⟨MessageRole.user, some completion⟩]

end CodeLlamaPromptStyle

namespace ChatMLPromptStyle

/-- The body of the loop in `ChatMLPromptStyle._messages_to_prompt`: SYSTEM
content is appended into the open block, a USER message opens a `user` block,
any other role leaves the prompt unchanged. -/
def step (prompt : String) (message : ChatMessage) : String :=
  if message.role.lower == "system" then
    prompt ++ pyStrip (contentOrEmpty message)
  else if message.role.lower == "user" then
    prompt ++ "<|im_end|>\n<|im_start|>user\n"
      ++ (pyStrip (contentOrEmpty message) ++ "<|im_end|>\n")
  else
    prompt

/-- `ChatMLPromptStyle._messages_to_prompt`: starts the system block, appends
SYSTEM contents into it, opens a `user` block per USER message, silently skips
every other role, and ends with the `assistant` cue. -/
def messages_to_prompt (messages : List ChatMessage) : String :=
  (messages.foldl step "<|im_start|>system\n") ++ "<|im_start|>assistant\n"

/-- `ChatMLPromptStyle._completion_to_prompt`: wrap as a USER message and
delegate. -/
def completion_to_prompt (completion : String) : String :=
  messages_to_prompt [⟨MessageRole.user, some completion⟩]

end ChatMLPromptStyle

namespace Llama2PromptStyle

/-- Modelled from the spec: `llama_index.llms.llama_utils.messages_to_prompt`,
the external llama2 chat template that `Llama2PromptStyle._messages_to_prompt`
delegates to; its code is not part of this repository.  Per the spec it wraps
the exchange in `<s> [INST] <<SYS>> system-text <</SYS>> ... [/INST] ... </s>`
framing, a leading SYSTEM message supplying the `<<SYS>>` block, and every
content is trimmed of surrounding whitespace. -/
def tail_to_prompt (messages : List ChatMessage) : String :=
  String.join (messages.map fun m =>
    match m.role with
    | MessageRole.user => pyStrip (contentOrEmpty m) ++ " [/INST]"
    | MessageRole.assistant => " " ++ pyStrip (contentOrEmpty m) ++ " </s>"
    | _ => "")

/-- Modelled from the spec: see `Llama2PromptStyle.tail_to_prompt`. -/
def messages_to_prompt (messages : List ChatMessage) : String :=
  match messages with
  | ⟨MessageRole.system, c⟩ :: rest =>
    "<s> [INST] <<SYS>>\n" ++ pyStrip (strOfContent c) ++ "\n<</SYS>>\n\n"
      ++ tail_to_prompt rest
  | rest => "<s> [INST] " ++ tail_to_prompt rest

/-- Modelled from the spec: `llama_utils.completion_to_prompt`, which the spec
defines for every non-Default variant as wrapping the text as a single USER
message and delegating to `messages_to_prompt`. -/
def completion_to_prompt (completion : String) : String :=
  messages_to_prompt [⟨MessageRole.user, some completion⟩]

end Llama2PromptStyle

/-- The concrete prompt-style classes that `PROMPT_STYLE_CLS_MAP` maps style
names to. -/
inductive PromptStyleCls where
  | defaultStyle
  | chatML
  | codeLlama
  | llama2
  | mistral
  | tag
deriving DecidableEq, Repr

/-- `PROMPT_STYLE_CLS_MAP`: the dict from style name (or `None`) to class.
Python dict lookup is exact and case-sensitive. -/
def PROMPT_STYLE_CLS_MAP : Option String → Option PromptStyleCls
  | none => some .defaultStyle
  | some "default" => some .defaultStyle
  | some "chatml" => some .chatML
  | some "codellama" => some .codeLlama
  | some "llama2" => some .llama2
  | some "mistral" => some .mistral
  | some "tag" => some .tag
  | some _ => none

/-- `get_prompt_style`: look the name up in `PROMPT_STYLE_CLS_MAP` (missing
keys give `None`, and every class in the map is truthy) and instantiate the
class, or raise `ValueError` (the spec's `UnknownStyleError`) carrying the
offending name. -/
def get_prompt_style (prompt_style : Option String) :
    Except (Option String) PromptStyleCls :=
  match PROMPT_STYLE_CLS_MAP prompt_style with
  | some style_cls => .ok style_cls
  | none => .error prompt_style

/-- A message with its content (when present) stripped of surrounding
whitespace; used to state that a style's output never shows the surrounding
whitespace of any content. -/
def trimMessage (m : ChatMessage) : ChatMessage :=
  ⟨m.role, m.content.map pyStrip⟩

/-- Concatenation of the renderings of the list's elements, in order; used to
state closed forms of the fold-based styles. -/
def concatMap (f : α → String) : List α → String
  | [] => ""
  | a :: l => f a ++ concatMap f l

/-- A role the Mistral style accepts (and the spec's data model lists). -/
def supportedRole (r : MessageRole) : Prop :=
  r = MessageRole.system ∨ r = MessageRole.user ∨ r = MessageRole.assistant

instance (r : MessageRole) : Decidable (supportedRole r) := by
  unfold supportedRole; infer_instance

theorem dropWhile_dropWhile (p : Char → Bool) (l : List Char) :
    (l.dropWhile p).dropWhile p = l.dropWhile p := by
  induction l with
  | nil => rfl
  | cons a t ih =>
    by_cases h : p a
    · simpa [List.dropWhile_cons, h] using ih
    · simp [List.dropWhile_cons, h]

theorem dropWhile_head_cases (p : Char → Bool) (l : List Char) :
    l.dropWhile p = [] ∨ ∃ a t, l.dropWhile p = a :: t ∧ p a = false := by
  induction l with
  | nil => exact Or.inl rfl
  | cons a t ih =>
    by_cases h : p a
    · simpa [List.dropWhile_cons, h] using ih
    · exact Or.inr ⟨a, t, by simp [List.dropWhile_cons, h], by simpa using h⟩

theorem rstripList_cons (a : Char) (t : List Char) :
    rstripList (a :: t) = [] ∨ ∃ u, rstripList (a :: t) = a :: u := by
  unfold rstripList
  cases hd : ((a :: t).reverse.dropWhile pyIsSpace).reverse with
  | nil => exact Or.inl rfl
  | cons b u =>
    refine Or.inr ⟨u, ?_⟩
    have hsplit :
        (a :: t).reverse.takeWhile pyIsSpace ++ (a :: t).reverse.dropWhile pyIsSpace
          = (a :: t).reverse :=
      List.takeWhile_append_dropWhile pyIsSpace (a :: t).reverse
    have h2 := congrArg List.reverse hsplit
    rw [List.reverse_append, List.reverse_reverse, hd] at h2
    rw [List.cons_append] at h2
    have hab : b = a := (List.cons.injEq _ _ _ _).mp h2 |>.1
    rw [hab]

theorem rstripList_rstripList (l : List Char) :
    rstripList (rstripList l) = rstripList l := by
  unfold rstripList
  rw [List.reverse_reverse, dropWhile_dropWhile]

theorem pyStripList_idem (l : List Char) :
    pyStripList (pyStripList l) = pyStripList l := by
  unfold pyStripList
  rcases dropWhile_head_cases pyIsSpace l with hnil | ⟨a, t, hat, ha⟩
  · rw [hnil]; rfl
  · rw [hat]
    rcases rstripList_cons a t with h | ⟨u, h⟩
    · rw [h]; rfl
    · rw [h, List.dropWhile_cons, ha]
      simp only [Bool.false_eq_true, if_false]
      rw [← h, rstripList_rstripList, h]

/-- Python's `strip` is idempotent: stripping a stripped string changes
nothing. -/
theorem pyStrip_pyStrip (s : String) : pyStrip (pyStrip s) = pyStrip s :=
  congrArg String.mk (pyStripList_idem s.data)

theorem pyStrip_contentOrEmpty_trim (m : ChatMessage) :
    pyStrip (contentOrEmpty (trimMessage m)) = pyStrip (contentOrEmpty m) := by
  cases m with
  | mk r c => cases c <;> simp [trimMessage, contentOrEmpty, pyStrip_pyStrip]

theorem pyStrip_strOfContent_trim (c : Option String) :
    pyStrip (strOfContent (c.map pyStrip)) = pyStrip (strOfContent c) := by
  cases c <;> simp [strOfContent, pyStrip_pyStrip]

theorem foldl_append_concatMap (f : α → String) (l : List α) :
    ∀ acc : String, l.foldl (fun p a => p ++ f a) acc = acc ++ concatMap f l := by
  induction l with
  | nil => intro acc; simp [concatMap]
  | cons a t ih =>
    intro acc
    rw [List.foldl_cons, ih, concatMap, ← String.append_assoc]

theorem PROMPT_STYLE_CLS_MAP_unknown (s : String)
    (hs : s ∉ ["default", "chatml", "codellama", "llama2", "mistral", "tag"]) :
    PROMPT_STYLE_CLS_MAP (some s) = none := by
  unfold PROMPT_STYLE_CLS_MAP
  split <;> simp_all

/-- C1: for every style name in {absent, "default", "chatml", "codellama",
"llama2", "mistral", "tag"} `get_prompt_style` returns a strategy class
(absent and "default" both giving the Default strategy), and for every string
outside this set it raises the unknown-style error carrying the offending
name; the lookup is exact and case-sensitive with no fallback. -/
theorem C1_get_prompt_style_closed_set :
    get_prompt_style none = .ok .defaultStyle
    ∧ get_prompt_style (some "default") = .ok .defaultStyle
    ∧ get_prompt_style (some "chatml") = .ok .chatML
    ∧ get_prompt_style (some "codellama") = .ok .codeLlama
    ∧ get_prompt_style (some "llama2") = .ok .llama2
    ∧ get_prompt_style (some "mistral") = .ok .mistral
    ∧ get_prompt_style (some "tag") = .ok .tag
    ∧ ∀ s : String,
        s ∉ ["default", "chatml", "codellama", "llama2", "mistral", "tag"] →
        get_prompt_style (some s) = .error (some s) := by
  refine ⟨rfl, rfl, rfl, rfl, rfl, rfl, rfl, fun s hs => ?_⟩
  unfold get_prompt_style
  rw [PROMPT_STYLE_CLS_MAP_unknown s hs]

/-- C1 witness: "Default" (wrong case) is outside the closed set and errors,
by the theorem itself. -/
theorem C1_get_prompt_style_closed_set_witness :
    "Default" ∉ ["default", "chatml", "codellama", "llama2", "mistral", "tag"]
    ∧ get_prompt_style (some "Default") = .error (some "Default") :=
  ⟨by decide, C1_get_prompt_style_closed_set.2.2.2.2.2.2.2 "Default" (by decide)⟩

/-- C2: the Default variant formats every conversation and every completion to
the empty string. -/
theorem C2_default_style_is_empty :
    (∀ messages : List ChatMessage,
      DefaultPromptStyle.messages_to_prompt messages = "")
    ∧ ∀ completion : String,
        DefaultPromptStyle.completion_to_prompt completion = "" :=
  ⟨fun _ => rfl, fun _ => rfl⟩

/-- C3: the claim says every non-Default variant treats absent content as the
empty string, never showing it as literal text.  The Mistral variant instead
formats the absent content via `str(...)`, so it appears as the literal text
"None": `[USER: None]` yields `"<s>[INST] None [/INST]"`, differing from the
empty-content `"<s>[INST]  [/INST]"`.  The Tag, CodeLlama and ChatML variants
do treat absent content as empty, as the claim says. -/
theorem C3_mistral_absent_content_shows_None :
    MistralPromptStyle.messages_to_prompt [⟨MessageRole.user, none⟩]
      = .ok "<s>[INST] None [/INST]"
    ∧ MistralPromptStyle.messages_to_prompt [⟨MessageRole.user, some ""⟩]
      = .ok "<s>[INST]  [/INST]"
    ∧ TagPromptStyle.messages_to_prompt [⟨MessageRole.user, none⟩]
      = TagPromptStyle.messages_to_prompt [⟨MessageRole.user, some ""⟩]
    ∧ CodeLlamaPromptStyle.messages_to_prompt [⟨MessageRole.user, none⟩]
      = CodeLlamaPromptStyle.messages_to_prompt [⟨MessageRole.user, some ""⟩]
    ∧ ChatMLPromptStyle.messages_to_prompt [⟨MessageRole.user, none⟩]
      = ChatMLPromptStyle.messages_to_prompt [⟨MessageRole.user, some ""⟩] :=
  ⟨rfl, rfl, rfl, rfl, rfl⟩

/-- C4: for every non-Default variant, formatting a bare completion equals
formatting the one-message conversation with a USER message holding that text
(for the externally defined Llama2 delegate, by its spec model). -/
theorem C4_completion_wraps_single_user_message (completion : String) :
    TagPromptStyle.completion_to_prompt completion
      = TagPromptStyle.messages_to_prompt [⟨MessageRole.user, some completion⟩]
    ∧ MistralPromptStyle.completion_to_prompt completion
      = MistralPromptStyle.messages_to_prompt [⟨MessageRole.user, some completion⟩]
    ∧ CodeLlamaPromptStyle.completion_to_prompt completion
      = CodeLlamaPromptStyle.messages_to_prompt [⟨MessageRole.user, some completion⟩]
    ∧ ChatMLPromptStyle.completion_to_prompt completion
      = ChatMLPromptStyle.messages_to_prompt [⟨MessageRole.user, some completion⟩]
    ∧ Llama2PromptStyle.completion_to_prompt completion
      = Llama2PromptStyle.messages_to_prompt [⟨MessageRole.user, some completion⟩] :=
  ⟨rfl, rfl, rfl, rfl, rfl⟩

theorem MistralPromptStyle.loop_error_iff (messages : List ChatMessage) :
    ∀ (inst_buffer : List String) (text : String),
      (∃ r, MistralPromptStyle.loop inst_buffer text messages = .error r)
      ↔ ∃ m ∈ messages, ¬ supportedRole m.role := by
  induction messages with
  | nil =>
    intro inst_buffer text
    constructor
    · rintro ⟨r, hr⟩
      unfold MistralPromptStyle.loop at hr
      split at hr <;> cases hr
    · rintro ⟨m, hm, -⟩
      cases hm
  | cons m rest ih =>
    intro inst_buffer text
    unfold MistralPromptStyle.loop
    by_cases h1 : m.role = MessageRole.system ∨ m.role = MessageRole.user
    · rw [if_pos h1, ih]
      constructor
      · rintro ⟨m', hm', h⟩
        exact ⟨m', List.mem_cons_of_mem _ hm', h⟩
      · rintro ⟨m', hm', h⟩
        rcases List.mem_cons.mp hm' with rfl | hm'
        · exact absurd (by unfold supportedRole; tauto) h
        · exact ⟨m', hm', h⟩
    · rw [if_neg h1]
      by_cases h2 : m.role = MessageRole.assistant
      · rw [if_pos h2, ih]
        constructor
        · rintro ⟨m', hm', h⟩
          exact ⟨m', List.mem_cons_of_mem _ hm', h⟩
        · rintro ⟨m', hm', h⟩
          rcases List.mem_cons.mp hm' with rfl | hm'
          · exact absurd (by unfold supportedRole; tauto) h
          · exact ⟨m', hm', h⟩
      · rw [if_neg h2]
        constructor
        · intro _
          exact ⟨m, List.mem_cons_self m rest, by unfold supportedRole; tauto⟩
        · intro _
          exact ⟨m.role, rfl⟩

/-- C5: the Mistral variant errors (the spec's `UnsupportedRoleError`)
precisely when some message's role lies outside SYSTEM/USER/ASSISTANT, and an
errored run carries no output string.  (The other variants are total
string-valued functions over all roles, so they never raise.) -/
theorem C5_mistral_unsupported_role_iff (messages : List ChatMessage) :
    ((∃ r, MistralPromptStyle.messages_to_prompt messages = .error r)
      ↔ ∃ m ∈ messages, ¬ supportedRole m.role)
    ∧ ∀ r s, MistralPromptStyle.messages_to_prompt messages = .error r →
        MistralPromptStyle.messages_to_prompt messages ≠ .ok s := by
  refine ⟨MistralPromptStyle.loop_error_iff messages [] "", ?_⟩
  intro r s hr hs
  rw [hr] at hs
  cases hs

/-- C5 witness: a TOOL message makes Mistral error, by the theorem itself. -/
theorem C5_mistral_unsupported_role_iff_witness :
    (∃ r, MistralPromptStyle.messages_to_prompt [⟨MessageRole.tool, some "x"⟩]
      = .error r)
    ∧ MistralPromptStyle.messages_to_prompt [⟨MessageRole.tool, some "x"⟩]
      ≠ .ok "" :=
  ⟨(C5_mistral_unsupported_role_iff [⟨MessageRole.tool, some "x"⟩]).1.mpr
      ⟨⟨MessageRole.tool, some "x"⟩, List.mem_cons_self _ _, by decide⟩,
    (C5_mistral_unsupported_role_iff [⟨MessageRole.tool, some "x"⟩]).2
      MessageRole.tool "" rfl⟩

/-- C6: Mistral's two pinned outputs, and its algorithm: SYSTEM/USER messages
append their trimmed content to the instruction buffer, an ASSISTANT message
flushes the buffer as a closed `<s>[INST] ... [/INST] ...</s>` block, and a
non-empty buffer left at the end yields a final unterminated
`<s>[INST] ... [/INST]` block. -/
theorem C6_mistral_instruction_buffering :
    MistralPromptStyle.messages_to_prompt [⟨MessageRole.user, some "hello"⟩]
      = .ok "<s>[INST] hello [/INST]"
    ∧ MistralPromptStyle.messages_to_prompt
        [⟨MessageRole.user, some "hi"⟩, ⟨MessageRole.assistant, some "yo"⟩]
      = .ok "<s>[INST] hi [/INST] yo</s>"
    ∧ (∀ (inst_buffer : List String) (text : String) (m : ChatMessage) rest,
        m.role = MessageRole.system ∨ m.role = MessageRole.user →
        MistralPromptStyle.loop inst_buffer text (m :: rest)
          = MistralPromptStyle.loop
              (inst_buffer ++ [pyStrip (strOfContent m.content)]) text rest)
    ∧ (∀ (inst_buffer : List String) (text : String) (m : ChatMessage) rest,
        m.role = MessageRole.assistant →
        MistralPromptStyle.loop inst_buffer text (m :: rest)
          = MistralPromptStyle.loop []
              (text
                ++ ("<s>[INST] " ++ String.intercalate "\n" inst_buffer ++ " [/INST]")
                ++ (" " ++ pyStrip (strOfContent m.content) ++ "</s>"))
              rest)
    ∧ (∀ (inst_buffer : List String) (text : String), inst_buffer ≠ [] →
        MistralPromptStyle.loop inst_buffer text []
          = .ok (text
              ++ ("<s>[INST] " ++ String.intercalate "\n" inst_buffer ++ " [/INST]")))
    ∧ ∀ text : String, MistralPromptStyle.loop [] text [] = .ok text := by
  refine ⟨rfl, rfl, ?_, ?_, ?_, fun _ => rfl⟩
  · intro inst_buffer text m rest h
    conv_lhs => unfold MistralPromptStyle.loop
    rw [if_pos h]
  · intro inst_buffer text m rest h
    conv_lhs => unfold MistralPromptStyle.loop
    rw [if_neg (by simp [h]), if_pos h]
  · intro inst_buffer text h
    unfold MistralPromptStyle.loop
    rw [if_pos (List.length_pos.mpr h)]

/-- C6 witness: the buffering step on a USER message, the flush on an
ASSISTANT message, and the final flush of a non-empty buffer, each at a
concrete input, by the theorem itself. -/
theorem C6_mistral_instruction_buffering_witness :
    MistralPromptStyle.loop ["a"] "t" [⟨MessageRole.user, some " b "⟩]
      = MistralPromptStyle.loop (["a"] ++ [pyStrip (strOfContent (some " b "))]) "t" []
    ∧ MistralPromptStyle.loop ["hi"] "" [⟨MessageRole.assistant, some "yo"⟩]
      = MistralPromptStyle.loop []
          ("" ++ ("<s>[INST] " ++ String.intercalate "\n" ["hi"] ++ " [/INST]")
            ++ (" " ++ pyStrip (strOfContent (some "yo")) ++ "</s>")) []
    ∧ MistralPromptStyle.loop ["q"] "t" []
      = .ok ("t" ++ ("<s>[INST] " ++ String.intercalate "\n" ["q"] ++ " [/INST]")) :=
  ⟨C6_mistral_instruction_buffering.2.2.1 ["a"] "t" ⟨MessageRole.user, some " b "⟩ []
      (Or.inr rfl),
    C6_mistral_instruction_buffering.2.2.2.1 ["hi"] "" ⟨MessageRole.assistant, some "yo"⟩ []
      rfl,
    C6_mistral_instruction_buffering.2.2.2.2.1 ["q"] "t" (by decide)⟩

theorem chatml_step_skip (acc : String) (m : ChatMessage)
    (h : (m.role == MessageRole.system || m.role == MessageRole.user) = false) :
    ChatMLPromptStyle.step acc m = acc := by
  obtain ⟨r, c⟩ := m
  cases r <;> simp_all [ChatMLPromptStyle.step, MessageRole.lower]

theorem chatml_foldl_filter (messages : List ChatMessage) :
    ∀ acc : String,
      (messages.filter
        fun m => m.role == MessageRole.system || m.role == MessageRole.user).foldl
          ChatMLPromptStyle.step acc
        = messages.foldl ChatMLPromptStyle.step acc := by
  induction messages with
  | nil => intro acc; rfl
  | cons m rest ih =>
    intro acc
    by_cases h : (m.role == MessageRole.system || m.role == MessageRole.user) = true
    · simp only [List.filter_cons, h, if_true]
      rw [List.foldl_cons, List.foldl_cons, ih]
    · have hf : (m.role == MessageRole.system || m.role == MessageRole.user) = false := by
        simpa using h
      simp only [List.filter_cons, hf, Bool.false_eq_true, if_false]
      rw [List.foldl_cons, chatml_step_skip acc m hf, ih]

/-- C7: ChatML's pinned output on `[SYSTEM:"S", USER:"U"]`, and for every
conversation the output is unchanged when the messages whose role is neither
SYSTEM nor USER are removed: such messages are silently omitted, never an
error. -/
theorem C7_chatml_concrete_and_skips_other_roles (messages : List ChatMessage) :
    ChatMLPromptStyle.messages_to_prompt
        [⟨MessageRole.system, some "S"⟩, ⟨MessageRole.user, some "U"⟩]
      = "<|im_start|>system\nS<|im_end|>\n<|im_start|>user\nU<|im_end|>\n<|im_start|>assistant\n"
    ∧ ChatMLPromptStyle.messages_to_prompt
        (messages.filter
          fun m => m.role == MessageRole.system || m.role == MessageRole.user)
      = ChatMLPromptStyle.messages_to_prompt messages := by
  refine ⟨rfl, ?_⟩
  unfold ChatMLPromptStyle.messages_to_prompt
  rw [chatml_foldl_filter]

/-- C8: Tag's pinned output on `[SYSTEM:"S", USER:"hi "]`, and its closed
form: one `<|role|>: trimmed-content` line per message in input order,
followed by the unterminated `<|assistant|>: ` cue. -/
theorem C8_tag_line_per_message (messages : List ChatMessage) :
    TagPromptStyle.messages_to_prompt
        [⟨MessageRole.system, some "S"⟩, ⟨MessageRole.user, some "hi "⟩]
      = "<|system|>: S\n<|user|>: hi\n<|assistant|>: "
    ∧ TagPromptStyle.messages_to_prompt messages
      = concatMap TagPromptStyle.line messages ++ "<|assistant|>: " := by
  refine ⟨rfl, ?_⟩
  unfold TagPromptStyle.messages_to_prompt
  rw [foldl_append_concatMap TagPromptStyle.line messages "", String.empty_append]

theorem pyStrip_getD_map (c : Option String) :
    pyStrip ((c.map pyStrip).getD "") = pyStrip (c.getD "") := by
  cases c <;> simp [pyStrip_pyStrip]

theorem tag_line_trim (m : ChatMessage) :
    TagPromptStyle.line (trimMessage m) = TagPromptStyle.line m := by
  obtain ⟨r, c⟩ := m
  simp [TagPromptStyle.line, trimMessage, contentOrEmpty, pyStrip_getD_map]

theorem codellama_segment_trim (m : ChatMessage) :
    CodeLlamaPromptStyle.segment (trimMessage m) = CodeLlamaPromptStyle.segment m := by
  obtain ⟨r, c⟩ := m
  simp [CodeLlamaPromptStyle.segment, trimMessage, contentOrEmpty, pyStrip_getD_map]

theorem chatml_step_trim (acc : String) (m : ChatMessage) :
    ChatMLPromptStyle.step acc (trimMessage m) = ChatMLPromptStyle.step acc m := by
  obtain ⟨r, c⟩ := m
  simp [ChatMLPromptStyle.step, trimMessage, contentOrEmpty, pyStrip_getD_map]

theorem MistralPromptStyle.loop_map_trim (messages : List ChatMessage) :
    ∀ (inst_buffer : List String) (text : String),
      MistralPromptStyle.loop inst_buffer text (messages.map trimMessage)
        = MistralPromptStyle.loop inst_buffer text messages := by
  induction messages with
  | nil => intro b t; rfl
  | cons m rest ih =>
    intro b t
    obtain ⟨r, c⟩ := m
    rw [List.map_cons]
    conv_lhs => unfold MistralPromptStyle.loop
    conv_rhs => unfold MistralPromptStyle.loop
    simp only [trimMessage]
    by_cases h1 : r = MessageRole.system ∨ r = MessageRole.user
    · rw [if_pos h1, if_pos h1, pyStrip_strOfContent_trim, ih]
    · rw [if_neg h1, if_neg h1]
      by_cases h2 : r = MessageRole.assistant
      · rw [if_pos h2, if_pos h2, pyStrip_strOfContent_trim, ih]
      · rw [if_neg h2, if_neg h2]

theorem llama2_tail_trim (messages : List ChatMessage) :
    Llama2PromptStyle.tail_to_prompt (messages.map trimMessage)
      = Llama2PromptStyle.tail_to_prompt messages := by
  unfold Llama2PromptStyle.tail_to_prompt
  rw [List.map_map]
  congr 1
  refine List.map_congr_left fun m _ => ?_
  obtain ⟨r, c⟩ := m
  cases r <;> simp [trimMessage, contentOrEmpty, pyStrip_getD_map, Function.comp]

/-- C9: for every non-Default variant, the output never shows leading or
trailing whitespace of a content: formatting is invariant under pre-trimming
every message's content (Llama2 via its spec model). -/
theorem C9_whitespace_always_trimmed (messages : List ChatMessage) :
    TagPromptStyle.messages_to_prompt (messages.map trimMessage)
      = TagPromptStyle.messages_to_prompt messages
    ∧ CodeLlamaPromptStyle.messages_to_prompt (messages.map trimMessage)
      = CodeLlamaPromptStyle.messages_to_prompt messages
    ∧ ChatMLPromptStyle.messages_to_prompt (messages.map trimMessage)
      = ChatMLPromptStyle.messages_to_prompt messages
    ∧ MistralPromptStyle.messages_to_prompt (messages.map trimMessage)
      = MistralPromptStyle.messages_to_prompt messages
    ∧ Llama2PromptStyle.messages_to_prompt (messages.map trimMessage)
      = Llama2PromptStyle.messages_to_prompt messages := by
  refine ⟨?_, ?_, ?_, MistralPromptStyle.loop_map_trim messages [] "", ?_⟩
  · unfold TagPromptStyle.messages_to_prompt
    rw [List.foldl_map]
    congr 1
    exact List.foldl_ext _ _ _ fun acc m _ => by rw [tag_line_trim]
  · unfold CodeLlamaPromptStyle.messages_to_prompt
    rw [List.foldl_map]
    congr 1
    exact List.foldl_ext _ _ _ fun acc m _ => by rw [codellama_segment_trim]
  · unfold ChatMLPromptStyle.messages_to_prompt
    rw [List.foldl_map]
    congr 1
    exact List.foldl_ext _ _ _ fun acc m _ => chatml_step_trim acc m
  · cases messages with
    | nil => rfl
    | cons m rest =>
      obtain ⟨r, c⟩ := m
      have hfold : ∀ r' : MessageRole,
          ({ role := r', content := Option.map pyStrip c } : ChatMessage)
              :: List.map trimMessage rest
            = List.map trimMessage (⟨r', c⟩ :: rest) := fun _ => rfl
      cases r <;>
        simp only [List.map_cons, trimMessage, Llama2PromptStyle.messages_to_prompt,
          llama2_tail_trim, pyStrip_strOfContent_trim] <;>
        rw [hfold, llama2_tail_trim]

theorem MistralPromptStyle.loop_ok_extends (messages : List ChatMessage) :
    ∀ (inst_buffer : List String) (text r : String),
      MistralPromptStyle.loop inst_buffer text messages = .ok r →
      ∃ s, r = text ++ s := by
  induction messages with
  | nil =>
    intro inst_buffer text r h
    unfold MistralPromptStyle.loop at h
    split at h
    · injection h with h'
      exact ⟨_, h'.symm⟩
    · injection h with h'
      exact ⟨"", by rw [← h', String.append_empty]⟩
  | cons m rest ih =>
    intro inst_buffer text r h
    unfold MistralPromptStyle.loop at h
    split at h
    · exact ih _ _ _ h
    · split at h
      · obtain ⟨s, hs⟩ := ih _ _ _ h
        simp only [String.append_assoc] at hs
        exact ⟨_, hs⟩
      · cases h

/-- C10: a conversation opening with an ASSISTANT message flushes the empty
instruction buffer at once: the output (whenever the run succeeds) starts with
`<s>[INST]  [/INST] ` (empty instruction, two spaces) followed by the trimmed
assistant content and `</s>`; in particular `[ASSISTANT:"yo"]` formats to
`<s>[INST]  [/INST] yo</s>` rather than skipping the block or erroring. -/
theorem C10_mistral_leading_assistant_flushes_empty_buffer :
    (∀ (c : String) (rest : List ChatMessage) (r : String),
        MistralPromptStyle.messages_to_prompt
          (⟨MessageRole.assistant, some c⟩ :: rest) = .ok r →
        ∃ s, r = "<s>[INST]  [/INST] " ++ (pyStrip c ++ ("</s>" ++ s)))
    ∧ MistralPromptStyle.messages_to_prompt [⟨MessageRole.assistant, some "yo"⟩]
      = .ok "<s>[INST]  [/INST] yo</s>" := by
  constructor
  · intro c rest r h
    unfold MistralPromptStyle.messages_to_prompt at h
    have hstep :
        MistralPromptStyle.loop [] "" (⟨MessageRole.assistant, some c⟩ :: rest)
          = MistralPromptStyle.loop []
              ("" ++ ("<s>[INST] " ++ String.intercalate "\n" [] ++ " [/INST]")
                ++ (" " ++ pyStrip (strOfContent (some c)) ++ "</s>")) rest := by
      conv_lhs => unfold MistralPromptStyle.loop
      rw [if_neg (by simp), if_pos rfl]
    rw [hstep] at h
    obtain ⟨s, hs⟩ := MistralPromptStyle.loop_ok_extends rest _ _ _ h
    refine ⟨s, ?_⟩
    rw [hs]
    simp only [← String.append_assoc, String.empty_append]
    rfl
  · rfl

/-- C10 witness: the successful run on `[ASSISTANT:"yo"]`, fed to the theorem
itself. -/
theorem C10_mistral_leading_assistant_flushes_empty_buffer_witness :
    MistralPromptStyle.messages_to_prompt [⟨MessageRole.assistant, some "yo"⟩]
      = .ok "<s>[INST]  [/INST] yo</s>"
    ∧ ∃ s, "<s>[INST]  [/INST] yo</s>"
        = "<s>[INST]  [/INST] " ++ (pyStrip "yo" ++ ("</s>" ++ s)) :=
  ⟨rfl,
    C10_mistral_leading_assistant_flushes_empty_buffer.1 "yo" []
      "<s>[INST]  [/INST] yo</s>" rfl⟩
